import Mathlib

/-!
Verification of the concurrent pricing-task execution engine
(`src/ThreadManager.cpp`, `include/ThreadManager.h`).

Prices are `double` in the source; the price-table operations only store and
compare prices (no arithmetic), so they are modelled exactly over `ℚ`.
`std::map<std::string, double>` is modelled as an association list with
first-match lookup and replace-or-append insertion, which realises the same
key/value semantics for the operations used here.
-/

namespace ThreadMgr

/-- The `std::map<std::string, double> prices` field of `ThreadSafePriceTable`. -/
def Table := List (String × ℚ)

instance : DecidableEq Table := by
  unfold Table
  infer_instance

instance : Repr Table := by
  unfold Table
  infer_instance

/-- Lookup in the underlying map: `prices.find(productId)`. -/
def findPrice : Table → String → Option ℚ
  | [], _ => none
  | (k, v) :: rest, id => if k = id then some v else findPrice rest id

/-- Map store `prices[productId] = price`: replace the binding if the key
exists, otherwise add it. -/
def mapInsert : Table → String → ℚ → Table
  | [], id, p => [(id, p)]
  | (k, v) :: rest, id, p =>
      if k = id then (id, p) :: rest else (k, v) :: mapInsert rest id p

/-- `ThreadSafePriceTable::getPrice`: current price, or `0.0` when the
product is absent (shared lock, read only). -/
def getPrice (t : Table) (id : String) : ℚ :=
  match findPrice t id with
  | some v => v
  | none => 0

/-- `ThreadSafePriceTable::setPrice`: unconditional overwrite under the
exclusive lock. -/
def setPrice (t : Table) (id : String) (p : ℚ) : Table :=
  mapInsert t id p

/-- `ThreadSafePriceTable::updatePriceIfLower`: under one exclusive-lock
acquisition, store `newPrice` and return `true` iff the key is absent or
`newPrice` is strictly below the stored price; otherwise return `false`
leaving the map untouched. -/
def updatePriceIfLower (t : Table) (id : String) (newPrice : ℚ) : Bool × Table :=
  match findPrice t id with
  | none => (true, mapInsert t id newPrice)
  | some cur =>
      if newPrice < cur then (true, mapInsert t id newPrice) else (false, t)

/-- `ThreadSafePriceTable::getAllPrices`: returns a copy of the map taken
under the shared lock; the table itself is not modified. -/
def getAllPrices (t : Table) : Table := t

/-- `ThreadSafePriceTable::size`: `prices.size()`. -/
def tableSize (t : Table) : ℕ := t.length

/-- Lock events of one `ThreadSafePriceTable` member-function body. -/
inductive LockEv
  | acquireShared
  | acquireExclusive
  | release
deriving DecidableEq, Repr

/-- Lock trace of the body of `updatePriceIfLower`: a single
`std::unique_lock<std::shared_mutex>` is taken at function entry and released
at exit, so the absent/lower check and the write happen under one
exclusive-lock acquisition. -/
def updatePriceIfLowerLockTrace : List LockEv :=
  [LockEv.acquireExclusive, LockEv.release]

/-- The key set of the table. -/
def keys (t : Table) : List String := t.map Prod.fst

/-- The member functions of `ThreadSafePriceTable`, as an operation alphabet. -/
inductive TableOp
  | getPriceOp (id : String)
  | setPriceOp (id : String) (p : ℚ)
  | updatePriceIfLowerOp (id : String) (p : ℚ)
  | getAllPricesOp
  | sizeOp

/-- Effect of one member function on the map: the `const` readers
(`getPrice`, `getAllPrices`, `size`) leave it untouched, the writers go
through `setPrice` / `updatePriceIfLower`. -/
def applyOp (t : Table) : TableOp → Table
  | TableOp.getPriceOp _ => t
  | TableOp.setPriceOp id p => setPrice t id p
  | TableOp.updatePriceIfLowerOp id p => (updatePriceIfLower t id p).2
  | TableOp.getAllPricesOp => t
  | TableOp.sizeOp => t

/-- Effect of a whole call sequence. -/
def applyOps (t : Table) (ops : List TableOp) : Table :=
  ops.foldl applyOp t

/-- `updatePriceIfLower` applied in sequence for a list of candidate prices,
collecting each call's boolean result (the sequential serialisation of the
concurrent calls: each call is one exclusive-lock critical section). -/
def runUpdates (id : String) : List ℚ → Table → List Bool × Table
  | [], t => ([], t)
  | p :: ps, t =>
      let r := updatePriceIfLower t id p
      let rest := runUpdates id ps r.2
      (r.1 :: rest.1, rest.2)

/-- The 3! = 6 possible arrival orders of the three concurrent
`updatePriceIfLower` calls with values 120, 80 and 150 (scenario P2). -/
def arrivalOrders : List (List ℚ) :=
  [[120, 80, 150], [120, 150, 80], [80, 120, 150],
   [80, 150, 120], [150, 120, 80], [150, 80, 120]]

theorem findPrice_mapInsert_self (t : Table) (id : String) (p : ℚ) :
    findPrice (mapInsert t id p) id = some p := by
  induction t with
  | nil => simp [mapInsert, findPrice]
  | cons hd tl ih =>
      obtain ⟨k, v⟩ := hd
      by_cases h : k = id
      · simp [mapInsert, h, findPrice]
      · simp [mapInsert, h, findPrice, ih]

theorem keys_mapInsert_sub (t : Table) (id : String) (p : ℚ) :
    keys t ⊆ keys (mapInsert t id p) := by
  induction t with
  | nil => simp [mapInsert, keys]
  | cons hd tl ih =>
      obtain ⟨k, v⟩ := hd
      by_cases h : k = id
      · subst h
        simp [mapInsert, keys]
      · intro a ha
        simp only [keys, mapInsert, h, if_false, List.map_cons, List.mem_cons] at ha ⊢
        rcases ha with ha | ha
        · exact Or.inl ha
        · exact Or.inr (ih ha)

theorem length_mapInsert_ge (t : Table) (id : String) (p : ℚ) :
    t.length ≤ (mapInsert t id p).length := by
  induction t with
  | nil => simp [mapInsert]
  | cons hd tl ih =>
      obtain ⟨k, v⟩ := hd
      by_cases h : k = id
      · simp [mapInsert, h]
      · simpa [mapInsert, h] using ih

theorem keys_applyOp_sub (t : Table) (op : TableOp) :
    keys t ⊆ keys (applyOp t op) := by
  cases op with
  | getPriceOp id => exact fun a ha => ha
  | setPriceOp id p => exact keys_mapInsert_sub t id p
  | updatePriceIfLowerOp id p =>
      unfold applyOp updatePriceIfLower
      cases h : findPrice t id with
      | none => simpa [h] using keys_mapInsert_sub t id p
      | some cur =>
          by_cases hlt : p < cur
          · simpa [h, hlt] using keys_mapInsert_sub t id p
          · simp [h, hlt]
  | getAllPricesOp => exact fun a ha => ha
  | sizeOp => exact fun a ha => ha

theorem tableSize_applyOp_ge (t : Table) (op : TableOp) :
    tableSize t ≤ tableSize (applyOp t op) := by
  cases op with
  | getPriceOp id => exact le_refl _
  | setPriceOp id p => exact length_mapInsert_ge t id p
  | updatePriceIfLowerOp id p =>
      unfold applyOp updatePriceIfLower
      cases h : findPrice t id with
      | none => simpa [h, tableSize] using length_mapInsert_ge t id p
      | some cur =>
          by_cases hlt : p < cur
          · simpa [h, hlt, tableSize] using length_mapInsert_ge t id p
          · simp [h, hlt, tableSize]
  | getAllPricesOp => exact le_refl _
  | sizeOp => exact le_refl _

theorem keys_applyOps_sub (ops : List TableOp) (t : Table) :
    keys t ⊆ keys (applyOps t ops) := by
  induction ops generalizing t with
  | nil => exact fun a ha => ha
  | cons op rest ih =>
      intro a ha
      exact ih (applyOp t op) (keys_applyOp_sub t op ha)

theorem tableSize_applyOps_ge (ops : List TableOp) (t : Table) :
    tableSize t ≤ tableSize (applyOps t ops) := by
  induction ops generalizing t with
  | nil => exact le_refl _
  | cons op rest ih =>
      exact le_trans (tableSize_applyOp_ge t op) (ih (applyOp t op))

/-!
`ThreadSafeLogger`: `log` pushes a message onto `logQueue` under `queueMutex`
and notifies; `stop` sets the atomic `stopFlag` and notifies all.  The
background writer `writerThreadFunc` repeats
`while (!stopFlag || !logQueue.empty())`, taking a `unique_lock` inside the
body, waiting on the condition variable until the queue is non-empty or the
flag is set, then draining the queue, unlocking around each file write.  The
outer loop condition is evaluated after the body's `unique_lock` has been
destroyed (and, the first time, before it was ever constructed), so it runs
with the mutex *not* held; the event trace below records the lock state at
each evaluation.
-/

/-- Shared state of `ThreadSafeLogger`: the pending queue, the atomic stop
flag, and the lines written so far to the destination file. -/
structure LoggerSt where
  queue : List String
  stopFlag : Bool
  written : List String
deriving DecidableEq, Repr

/-- Logger at construction: empty queue, stop flag clear, nothing written. -/
def initLogger : LoggerSt :=
  { queue := [], stopFlag := false, written := [] }

/-- `ThreadSafeLogger::log`: push the message under `queueMutex`, then
`cv.notify_one()`. -/
def loggerLog (s : LoggerSt) (message : String) : LoggerSt :=
  { s with queue := s.queue ++ [message] }

/-- `ThreadSafeLogger::stop`: set the stop flag, `cv.notify_all()`. -/
def loggerStop (s : LoggerSt) : LoggerSt :=
  { s with stopFlag := true }

/-- Observable events of the writer thread.  `termCheck lockHeld` is one
evaluation of the outer loop condition `!stopFlag || !logQueue.empty()`,
with the lock state at that moment. -/
inductive WEv
  | termCheck (lockHeld : Bool)
  | lockAcquire
  | waitReturn
  | write (msg : String)
  | lockRelease
deriving DecidableEq, Repr

/-- Inner loop of `writerThreadFunc`: while the queue is non-empty, pop the
front under the lock, unlock, write the message to the file (and flush),
re-lock.  Returns the messages written, in pop order, with the lock events. -/
def writerInner : List String → List String × List WEv
  | [] => ([], [])
  | m :: rest =>
      let r := writerInner rest
      (m :: r.1, WEv.lockRelease :: WEv.write m :: WEv.lockAcquire :: r.2)

/-- Outer loop of `ThreadSafeLogger::writerThreadFunc`, fuelled.  One fuel
unit is one evaluation of `while (!stopFlag || !logQueue.empty())`.  When the
condition holds, the body constructs the `unique_lock`, returns from
`cv.wait` (its predicate `!logQueue.empty() || stopFlag` holds throughout the
post-`stop()` scenarios stated below), drains the queue via the inner loop,
and the `unique_lock` is destroyed at the end of the body.  The condition is
evaluated with the mutex free, recorded as `termCheck false`.  With the stop
flag clear and the queue empty the thread blocks in `cv.wait`; the model
makes no progress there, which is observationally the same for the drain
claims. -/
def writerLoop : ℕ → LoggerSt → LoggerSt × List WEv
  | 0, s => (s, [])
  | fuel + 1, s =>
      if s.stopFlag && s.queue.isEmpty then
        (s, [WEv.termCheck false])
      else
        let inner := writerInner s.queue
        let s' : LoggerSt := { s with queue := [], written := s.written ++ inner.1 }
        let rest := writerLoop fuel s'
        (rest.1,
          (WEv.termCheck false :: WEv.lockAcquire :: WEv.waitReturn :: inner.2)
            ++ (WEv.lockRelease :: rest.2))

/-- Logger state in the P5 scenario: `msgs` enqueued by `log`, then `stop()`,
no further enqueues. -/
def loggerAfter (msgs : List String) : LoggerSt :=
  loggerStop (msgs.foldl loggerLog initLogger)

theorem foldl_loggerLog_queue (msgs : List String) (s : LoggerSt) :
    msgs.foldl loggerLog s =
      { s with queue := s.queue ++ msgs } := by
  induction msgs generalizing s with
  | nil => simp
  | cons m rest ih => simp [loggerLog, ih]

theorem loggerAfter_eq (msgs : List String) :
    loggerAfter msgs = { queue := msgs, stopFlag := true, written := [] } := by
  simp [loggerAfter, loggerStop, initLogger, foldl_loggerLog_queue]

theorem writerInner_fst (q : List String) : (writerInner q).1 = q := by
  induction q with
  | nil => rfl
  | cons m rest ih => simp [writerInner, ih]

theorem writerInner_no_termCheck (q : List String) (b : Bool) :
    List.count (WEv.termCheck b) (writerInner q).2 = 0 := by
  induction q with
  | nil => rfl
  | cons m rest ih => simp [writerInner, List.count_cons, ih]

/-!
Task execution (`ThreadManager::executePricingTask`,
`ThreadManager::recordPriceChange`) and the two work-discovery modes
(`merchantPricingThread` for fixed assignment, the `startWorkers` lambda for
the pool).  The randomised inputs of a task (the baseline draw from
`uniform_real_distribution(5000, 15000)`, the stock draw, the market
context) are supplied through a `TaskEnv` oracle, and the fallible steps —
the random-machinery / context assembly that can throw, and
`strategy.calculatePrice` — are embedded as `Except`-returning steps caught
by the surrounding `try`/`catch`.
-/

/-- The `PricingTask` struct.  Its default constructor zero-initialises
`basePrice`, `adjustedPrice`, `stockLevel` and clears `success`. -/
structure PricingTask where
  merchantName : String
  productId : String
  basePrice : ℚ
  adjustedPrice : ℚ
  stockLevel : ℤ
  success : Bool
deriving DecidableEq, Repr

/-- `PricingTask task;` with merchant and product filled in, as at the top of
`executePricingTask`. -/
def defaultTask (merchantName productId : String) : PricingTask :=
  { merchantName := merchantName, productId := productId,
    basePrice := 0, adjustedPrice := 0, stockLevel := 0, success := false }

/-- The `PriceRecord` audit row (note `stockLevel : int` in the source). -/
structure PriceRecord where
  timestamp : String
  merchantName : String
  productId : String
  originalPrice : ℚ
  adjustedPrice : ℚ
  adjustmentRate : ℚ
  stockLevel : ℤ
  status : String
deriving DecidableEq, Repr

/-- Per-task oracle for the randomised inputs and for which fallible step, if
any, throws: `seedFails` models the baseline-seeding machinery throwing
(before `task.basePrice` is assigned), `ctxFails` models a later step of the
`try` block throwing before the strategy call. -/
structure TaskEnv where
  seedFails : Bool
  seedPrice : ℚ
  ctxFails : Bool
  stock : ℤ
deriving DecidableEq, Repr

/-- The external pricing function `strategy.calculatePrice`, reduced to the
one output the engine consumes (`result.newPrice`); it may signal failure. -/
def Strategy : Type :=
  String → ℚ → TaskEnv → Except String ℚ

/-- Steps 1–2 of `executePricingTask`: read the current price and, when it is
`0` (unseeded), draw a baseline from the seeding distribution.  The drawing
machinery is the fallible part (`std::random_device` may throw), and it runs
before `task.basePrice` is assigned. -/
def seedStep (env : TaskEnv) (current : ℚ) : Except String ℚ :=
  if current = 0 then
    if env.seedFails then Except.error "random_device failure"
    else Except.ok env.seedPrice
  else Except.ok current

/-- The `catch` branch of `executePricingTask`: mark the task failed and set
`task.adjustedPrice = task.basePrice` (whatever was assigned before the
throw). -/
def failTask (task : PricingTask) : PricingTask :=
  { task with success := false, adjustedPrice := task.basePrice }

/-- `ThreadManager::executePricingTask`: seed the baseline if needed, set
`task.basePrice`, assemble the market context, call the strategy; on success
write the new price to the table via `setPrice` and mark the task
successful; on any throw fall into the `catch` branch, leaving the table
untouched.  Returns the task together with the table after the call. -/
def executePricingTask (table : Table) (merchantName productId : String)
    (env : TaskEnv) (strategy : Strategy) : PricingTask × Table :=
  let t0 := defaultTask merchantName productId
  match seedStep env (getPrice table productId) with
  | Except.error _ => (failTask t0, table)
  | Except.ok currentPrice =>
      let t1 := { t0 with basePrice := currentPrice }
      if env.ctxFails then (failTask t1, table)
      else
        match strategy productId currentPrice env with
        | Except.error _ => (failTask t1, table)
        | Except.ok newPrice =>
            ({ t1 with adjustedPrice := newPrice, stockLevel := env.stock,
                       success := true },
             setPrice table productId newPrice)

/-- The adjustment-rate expression of `recordPriceChange`:
`(task.adjustedPrice / task.basePrice - 1) * 100`, with no guard against
`basePrice == 0`. -/
def adjustmentRate (adjusted base : ℚ) : ℚ :=
  (adjusted / base - 1) * 100

/-- Division with an explicit definedness check: `none` exactly when the
divisor is zero, i.e. when the double division of the source would not
produce a finite well-defined value (`0.0/0.0` is NaN). -/
def ratDivChecked (a b : ℚ) : Option ℚ :=
  if b = 0 then none else some (a / b)

/-- The adjustment-rate expression with the division checked. -/
def adjustmentRateChecked (adjusted base : ℚ) : Option ℚ :=
  (ratDivChecked adjusted base).map (fun q => (q - 1) * 100)

/-- The `PriceRecord` built by `recordPriceChange` from a finished task. -/
def mkRecord (ts merchantName : String) (task : PricingTask) : PriceRecord :=
  { timestamp := ts, merchantName := merchantName, productId := task.productId,
    originalPrice := task.basePrice, adjustedPrice := task.adjustedPrice,
    adjustmentRate := adjustmentRate task.adjustedPrice task.basePrice,
    stockLevel := task.stockLevel,
    status := if task.success then "SUCCESS" else "FAILED" }

/-- `ThreadManager::recordPriceChange`: under `historyMutex`, append exactly
one record for the task. -/
def recordPriceChange (history : List PriceRecord) (task : PricingTask)
    (merchantName ts : String) : List PriceRecord :=
  history ++ [mkRecord ts merchantName task]

/-- The shared mutable state owned by `ThreadManager`: the price table, the
`priceHistory` ledger, and the three atomic counters. -/
structure MgrState where
  table : Table
  history : List PriceRecord
  total : ℕ
  successCnt : ℕ
  failedCnt : ℕ
deriving DecidableEq, Repr

/-- `ThreadManager` at construction: empty table and ledger, zero counters. -/
def initState : MgrState :=
  { table := [], history := [], total := 0, successCnt := 0, failedCnt := 0 }

/-- One unit of work as both execution modes perform it: run
`executePricingTask`, then `recordPriceChange`, then `totalTasks++` and
exactly one of `successTasks++` / `failedTasks++`.  At a quiescent point
(after `waitAll`) the counters and ledger length depend only on the multiset
of executed tasks, so a serialisation of the per-task atomic sections is a
faithful model of them. -/
def runTask (st : MgrState) (merchantName productId : String) (env : TaskEnv)
    (strategy : Strategy) (ts : String) : MgrState :=
  let r := executePricingTask st.table merchantName productId env strategy
  { table := r.2,
    history := recordPriceChange st.history r.1 merchantName ts,
    total := st.total + 1,
    successCnt := st.successCnt + (if r.1.success then 1 else 0),
    failedCnt := st.failedCnt + (if r.1.success then 0 else 1) }

/-- `ThreadManager::merchantPricingThread` (fixed-assignment mode): iterate
the merchant's product list, reading the atomic `stopFlag` before each item
(`if (stopFlag) break;`) and running one task per item.  `stopRead i` is the
value the i-th read of the flag returns; each product comes with its
randomness oracle. -/
def merchantThreadRun (strategy : Strategy) (ts merchantName : String)
    (stopRead : ℕ → Bool) :
    ℕ → List (String × TaskEnv) → MgrState → MgrState
  | _, [], st => st
  | r, (productId, env) :: rest, st =>
      if stopRead r then st
      else
        merchantThreadRun strategy ts merchantName stopRead (r + 1) rest
          (runTask st merchantName productId env strategy ts)

/-- A whole fixed-assignment run (`startPricing` + `waitAll`), with the
per-thread task blocks serialised (see `runTask`): each merchant processes
its own product list. -/
def runFixed (strategy : Strategy) (ts : String) (stopRead : ℕ → Bool)
    (merchants : List (String × List (String × TaskEnv)))
    (st : MgrState) : MgrState :=
  merchants.foldl
    (fun s mrc => merchantThreadRun strategy ts mrc.1 stopRead 0 mrc.2 s) st

/-- Number of tasks submitted in a fixed-assignment run. -/
def submittedCount (merchants : List (String × List (String × TaskEnv))) : ℕ :=
  (merchants.map (fun mrc => mrc.2.length)).sum

/-- The worker lambda of `ThreadManager::startWorkers`, for one worker and
no producers running concurrently (all `addTask` calls already completed).
`stopAt` is the number of reads of the atomic `stopFlag` that still return
`false` before `stopAll`'s store becomes visible; `r` counts the reads made
so far.  Each iteration: the outer `while (!stopFlag)` check reads the flag
once; when the queue is non-empty, `cv.wait` returns at once (its predicate
short-circuits on `!taskQueue.empty()`), the inner
`if (stopFlag && taskQueue.empty())` reads the flag once more but does not
break, one task is popped and executed outside the lock.  When the queue is
empty the worker waits until a read of the flag returns `true`, upon which
the inner check breaks out.  Returns the tasks left unexecuted on the queue
and the manager state. -/
def workerLoop (strategy : Strategy) (ts : String)
    (envOf : String → String → TaskEnv) :
    ℕ → ℕ → ℕ → List (String × String) → MgrState →
      List (String × String) × MgrState
  | 0, _, _, queue, st => (queue, st)
  | fuel + 1, stopAt, r, queue, st =>
      if stopAt ≤ r then (queue, st)
      else
        match queue with
        | [] => ([], st)
        | (merchantName, productId) :: rest =>
            workerLoop strategy ts envOf fuel stopAt (r + 2) rest
              (runTask st merchantName productId (envOf merchantName productId)
                strategy ts)

/-- A sample always-succeeding pricing function (a 10% markdown). -/
def strategyOk : Strategy :=
  fun _ currentPrice _ => Except.ok (currentPrice * 9 / 10)

/-- A pricing function that always signals failure. -/
def strategyFail : Strategy :=
  fun _ _ _ => Except.error "invalid input"

/-- A task oracle on which every step succeeds. -/
def envOk : TaskEnv :=
  { seedFails := false, seedPrice := 8000, ctxFails := false, stock := 200 }

/-- A task oracle on which the baseline-seeding machinery throws. -/
def envSeedFail : TaskEnv :=
  { seedFails := true, seedPrice := 8000, ctxFails := false, stock := 200 }

/-!
`ThreadManager::exportPriceTrend`: writes the CSV header, then one row per
ledger record in append order.  The stream is put in
`std::fixed << std::setprecision(2)` mode, so each `double` field is
rendered with exactly two digits after the decimal point; `stockLevel` is an
`int` and is rendered as a plain integer; `adjustmentRate` gets a `%`
suffix.  The two-decimal rendering is modelled at rational precision,
rounding the value to a whole number of hundredths.
-/

/-- Decimal digit character. -/
def digitChar (d : ℕ) : Char := Char.ofNat (48 + d)

/-- Exactly two decimal digits for a value `k < 100` (the hundredths part). -/
def twoDigits (k : ℕ) : String :=
  String.mk [digitChar (k / 10), digitChar (k % 10)]

/-- Nearest integer to `n / d` (for `d > 0`), ties away from zero. -/
def roundNearest (n : ℤ) (d : ℕ) : ℤ :=
  let m := (2 * n.natAbs + d) / (2 * d)
  if n < 0 then -(m : ℤ) else (m : ℤ)

/-- The value in hundredths, rounded to the nearest whole hundredth. -/
def cents (q : ℚ) : ℤ :=
  roundNearest (q.num * 100) q.den

/-- Fixed two-decimal rendering of a numeric value, as
`stream << std::fixed << std::setprecision(2) << x` does: the integer part,
a decimal point, and exactly two fractional digits of the value rounded to
hundredths (the tie policy of the underlying binary-to-decimal conversion is
immaterial to the properties proved here). -/
def twoDec (q : ℚ) : String :=
  (if cents q < 0 then "-" else "")
    ++ toString ((cents q).natAbs / 100)
    ++ "." ++ twoDigits ((cents q).natAbs % 100)

/-- A string is rendered with (exactly) two decimal places when its
third-from-last character is the decimal point. -/
def twoDecimalPlaces (s : String) : Prop :=
  s.data.reverse.get? 2 = some '.'

instance (s : String) : Decidable (twoDecimalPlaces s) := by
  unfold twoDecimalPlaces
  infer_instance

/-- The header line written by `exportPriceTrend`. -/
def csvHeader : String :=
  "timestamp,merchant,product,original_price,adjusted_price,adjustment_rate,stock_level,status"

/-- The eight comma-separated fields of one CSV data row, in the order the
source streams them.  The three `double` fields go through the fixed
two-decimal rendering, `adjustmentRate` additionally gets the `%` suffix,
and `stockLevel` is streamed as an `int`. -/
def csvFields (r : PriceRecord) : List String :=
  [r.timestamp, r.merchantName, r.productId,
   twoDec r.originalPrice, twoDec r.adjustedPrice,
   twoDec r.adjustmentRate ++ "%", toString r.stockLevel, r.status]

/-- One CSV data row. -/
def csvRow (r : PriceRecord) : String :=
  String.intercalate "," (csvFields r)

/-- `ThreadManager::exportPriceTrend` as the list of lines written to the
file: the header, then one row per `priceHistory` record in append order
(the whole ledger is walked under a single `historyMutex` acquisition). -/
def exportPriceTrend (history : List PriceRecord) : List String :=
  csvHeader :: history.map csvRow

theorem twoDec_eq_parts (q : ℚ) :
    twoDec q =
      ((if cents q < 0 then "-" else "")
        ++ toString ((cents q).natAbs / 100))
        ++ "." ++ twoDigits ((cents q).natAbs % 100) := by
  unfold twoDec
  simp [String.append_assoc]

theorem twoDecimalPlaces_parts (s : String) (k : ℕ) :
    twoDecimalPlaces (s ++ "." ++ twoDigits k) := by
  unfold twoDecimalPlaces twoDigits
  have h : (s ++ "." ++ String.mk [digitChar (k / 10), digitChar (k % 10)]).data
      = (s.data ++ ['.']) ++ [digitChar (k / 10), digitChar (k % 10)] := by
    simp [String.data_append]
  rw [h, List.reverse_append, List.reverse_append]
  rfl

theorem twoDec_twoDecimalPlaces (q : ℚ) : twoDecimalPlaces (twoDec q) := by
  rw [twoDec_eq_parts]
  exact twoDecimalPlaces_parts _ _

/-! Per-task accounting lemmas shared by the run-level theorems. -/

theorem runTask_total (st : MgrState) (m p ts : String) (env : TaskEnv)
    (strategy : Strategy) :
    (runTask st m p env strategy ts).total = st.total + 1 := rfl

theorem runTask_history_length (st : MgrState) (m p ts : String) (env : TaskEnv)
    (strategy : Strategy) :
    (runTask st m p env strategy ts).history.length = st.history.length + 1 := by
  simp [runTask, recordPriceChange]

theorem runTask_counter_sum (st : MgrState) (m p ts : String) (env : TaskEnv)
    (strategy : Strategy) :
    (runTask st m p env strategy ts).successCnt + (runTask st m p env strategy ts).failedCnt
      = st.successCnt + st.failedCnt + 1 := by
  unfold runTask
  by_cases h : (executePricingTask st.table m p env strategy).1.success <;>
    simp [h] <;> omega

theorem merchantThreadRun_noStop (strategy : Strategy) (ts m : String) (r : ℕ)
    (items : List (String × TaskEnv)) (st : MgrState) :
    (merchantThreadRun strategy ts m (fun _ => false) r items st).total
        = st.total + items.length ∧
      (merchantThreadRun strategy ts m (fun _ => false) r items st).history.length
        = st.history.length + items.length ∧
      (merchantThreadRun strategy ts m (fun _ => false) r items st).successCnt
          + (merchantThreadRun strategy ts m (fun _ => false) r items st).failedCnt
        = st.successCnt + st.failedCnt + items.length := by
  induction items generalizing r st with
  | nil => exact ⟨rfl, rfl, rfl⟩
  | cons item rest ih =>
      obtain ⟨p, env⟩ := item
      have h := ih (r + 1) (runTask st m p env strategy ts)
      have h1 := runTask_total st m p ts env strategy
      have h2 := runTask_history_length st m p ts env strategy
      have h3 := runTask_counter_sum st m p ts env strategy
      simp only [merchantThreadRun, if_neg Bool.false_ne_true, List.length_cons] at h ⊢
      omega

theorem runFixed_noStop (strategy : Strategy) (ts : String)
    (merchants : List (String × List (String × TaskEnv))) (st : MgrState) :
    (runFixed strategy ts (fun _ => false) merchants st).total
        = st.total + submittedCount merchants ∧
      (runFixed strategy ts (fun _ => false) merchants st).history.length
        = st.history.length + submittedCount merchants ∧
      (runFixed strategy ts (fun _ => false) merchants st).successCnt
          + (runFixed strategy ts (fun _ => false) merchants st).failedCnt
        = st.successCnt + st.failedCnt + submittedCount merchants := by
  induction merchants generalizing st with
  | nil => exact ⟨rfl, rfl, rfl⟩
  | cons mrc rest ih =>
      obtain ⟨m, items⟩ := mrc
      have h1 := merchantThreadRun_noStop strategy ts m 0 items st
      have h2 := ih (merchantThreadRun strategy ts m (fun _ => false) 0 items st)
      simp only [runFixed, List.foldl_cons, submittedCount, List.map_cons, List.sum_cons] at *
      refine ⟨?_, ?_, ?_⟩
      · rw [h2.1, h1.1]
        omega
      · rw [h2.2.1, h1.2.1]
        omega
      · rw [h2.2.2, h1.2.2]
        omega

/-!  The claim theorems. -/

/-- C1 (code bug): graceful shutdown of pool workers is violated by the
code.  The spec states a worker terminates only when the stop flag is set
AND the queue has been observed empty, so tasks enqueued before
`stopAll` are still executed.  But the outer loop of the `startWorkers`
worker is `while (!stopFlag)`, so once `stopAll`'s store is visible the
worker exits even with tasks still queued (the inner
`if (stopFlag && taskQueue.empty()) break;` shows the intended drain
condition).  Evaluations at the failing inputs: if the stop flag is already
visible at the worker's first read (`stopAt = 0`), both queued tasks are
discarded and no task is executed; if it becomes visible after one
iteration (`stopAt = 1`), the second queued task is discarded. -/
theorem C1_worker_discards_queued_tasks :
    (workerLoop strategyOk "ts" (fun _ _ => envOk) 10 0 0
        [("A", "P1"), ("B", "P2")] initState).1 = [("A", "P1"), ("B", "P2")] ∧
      (workerLoop strategyOk "ts" (fun _ _ => envOk) 10 0 0
          [("A", "P1"), ("B", "P2")] initState).2.total = 0 ∧
      (workerLoop strategyOk "ts" (fun _ _ => envOk) 10 1 0
          [("A", "P1"), ("B", "P2")] initState).1 = [("B", "P2")] ∧
      (workerLoop strategyOk "ts" (fun _ _ => envOk) 10 1 0
          [("A", "P1"), ("B", "P2")] initState).2.total = 1 :=
  ⟨rfl, rfl, rfl, rfl⟩

/-- C2 (counterexample): the second half of the claim is false.  In the
writer's event trace for the P5 scenario (two messages logged, then
`stop()`), every evaluation of the termination condition
`!stopFlag || !logQueue.empty()` happens with `queueMutex` *not* held
(`termCheck false`); there is no evaluation under the lock
(`termCheck true`), because the condition is checked before the body's
`unique_lock` is constructed / after it is destroyed.  The drain itself
does hold: both messages are written in order. -/
theorem C2_termCheck_not_under_lock :
    List.count (WEv.termCheck false) (writerLoop 2 (loggerAfter ["m1", "m2"])).2 = 2 ∧
      List.count (WEv.termCheck true) (writerLoop 2 (loggerAfter ["m1", "m2"])).2 = 0 ∧
      (writerLoop 2 (loggerAfter ["m1", "m2"])).1.written = ["m1", "m2"] := by
  decide

/-- C2 (amended): for every sequence of N `log` calls followed by `stop()`
(and no further enqueues), all N messages are written to the destination in
exact enqueue order before the writer exits, and the queue is empty at
exit; however the writer loop's termination condition is evaluated with the
enqueue mutex *not* held (no `termCheck true` event ever occurs).  The
writer terminates after at most two outer iterations: extra fuel does not
change the outcome. -/
theorem C2_drain_on_stop (msgs : List String) :
    (writerLoop 2 (loggerAfter msgs)).1.written = msgs ∧
      (writerLoop 2 (loggerAfter msgs)).1.queue = [] ∧
      List.count (WEv.termCheck true) (writerLoop 2 (loggerAfter msgs)).2 = 0 ∧
      (∀ extra : ℕ, writerLoop (extra + 2) (loggerAfter msgs)
        = writerLoop 2 (loggerAfter msgs)) := by
  rw [loggerAfter_eq]
  cases msgs with
  | nil => exact ⟨rfl, rfl, rfl, fun extra => rfl⟩
  | cons m rest =>
      refine ⟨?_, rfl, ?_, fun extra => rfl⟩
      · show [] ++ (writerInner (m :: rest)).1 = m :: rest
        simp [writerInner_fst]
      · simp [writerLoop, List.count_cons, List.count_append,
          writerInner_no_termCheck]

/-- C3 (confirmed): `updatePriceIfLower(id, newPrice)` returns `true` and
stores `newPrice` iff the key is absent or `newPrice` is strictly below the
stored price; on `false` the table is unchanged; and its lock trace is a
single exclusive-lock acquisition covering both the check and the write. -/
theorem C3_updatePriceIfLower_spec (t : Table) (id : String) (p : ℚ) :
    ((updatePriceIfLower t id p).1 = true ↔
        findPrice t id = none ∨ ∃ cur, findPrice t id = some cur ∧ p < cur) ∧
      ((updatePriceIfLower t id p).1 = true →
        findPrice (updatePriceIfLower t id p).2 id = some p) ∧
      ((updatePriceIfLower t id p).1 = false → (updatePriceIfLower t id p).2 = t) ∧
      List.count LockEv.acquireExclusive updatePriceIfLowerLockTrace = 1 := by
  refine ⟨?_, ?_, ?_, by decide⟩ <;>
  · unfold updatePriceIfLower
    cases h : findPrice t id with
    | none => simp [h, findPrice_mapInsert_self]
    | some cur =>
        by_cases hlt : p < cur
        · simp [h, hlt, findPrice_mapInsert_self]
        · simp [h, hlt]

/-- C3 witness: on the empty table the call stores 100 and reports it. -/
theorem C3_witness :
    (updatePriceIfLower [] "P1" 100).1 = true ∧
      findPrice (updatePriceIfLower [] "P1" 100).2 "P1" = some 100 :=
  ⟨(C3_updatePriceIfLower_spec [] "P1" 100).1.mpr (Or.inl rfl),
    (C3_updatePriceIfLower_spec [] "P1" 100).2.1
      ((C3_updatePriceIfLower_spec [] "P1" 100).1.mpr (Or.inl rfl))⟩

/-- C4 (confirmed): when a task's execution fails (the seeding machinery or
context assembly throws, or the pricing strategy signals an error), the
price table is left exactly as it was, the returned task's adjusted price
equals its base price, exactly one record with status `FAILED` is appended
to the ledger, the failed counter is incremented and the success counter is
not, and the total counter is incremented once. -/
theorem C4_failed_task_atomicity (st : MgrState) (m p ts : String) (env : TaskEnv)
    (strategy : Strategy)
    (h : (executePricingTask st.table m p env strategy).1.success = false) :
    (executePricingTask st.table m p env strategy).2 = st.table ∧
      (executePricingTask st.table m p env strategy).1.adjustedPrice
        = (executePricingTask st.table m p env strategy).1.basePrice ∧
      (runTask st m p env strategy ts).history
        = st.history ++ [mkRecord ts m (executePricingTask st.table m p env strategy).1] ∧
      (mkRecord ts m (executePricingTask st.table m p env strategy).1).status = "FAILED" ∧
      (runTask st m p env strategy ts).failedCnt = st.failedCnt + 1 ∧
      (runTask st m p env strategy ts).successCnt = st.successCnt ∧
      (runTask st m p env strategy ts).total = st.total + 1 := by
  unfold runTask recordPriceChange
  unfold executePricingTask at h ⊢
  cases hs : seedStep env (getPrice st.table p) with
  | error e =>
      simp [hs, failTask, defaultTask, mkRecord]
  | ok cur =>
      by_cases hc : env.ctxFails
      · simp [hs, hc, failTask, defaultTask, mkRecord]
      · cases hstrat : strategy p cur env with
        | error e =>
            simp [hs, hc, hstrat, failTask, defaultTask, mkRecord]
        | ok np =>
            exfalso
            simp [hs, hc, hstrat] at h

/-- C4 witness: a concrete failing task (the strategy signals an error). -/
theorem C4_witness :
    (executePricingTask initState.table "A" "P1" envOk strategyFail).2 = initState.table ∧
      (runTask initState "A" "P1" envOk strategyFail "ts").failedCnt
        = initState.failedCnt + 1 ∧
      (runTask initState "A" "P1" envOk strategyFail "ts").total = initState.total + 1 :=
  ⟨(C4_failed_task_atomicity initState "A" "P1" "ts" envOk strategyFail rfl).1,
    (C4_failed_task_atomicity initState "A" "P1" "ts" envOk strategyFail rfl).2.2.2.2.1,
    (C4_failed_task_atomicity initState "A" "P1" "ts" envOk strategyFail rfl).2.2.2.2.2.2⟩

/-- C5 (counterexample): the claim fails as stated.  In a fixed-assignment
run where the stop flag is already set when the merchant thread makes its
first check (`if (stopFlag) break;`), a merchant with two assigned products
executes neither: after the join, the ledger holds 0 records and the total
counter is 0, although K = 2 tasks were submitted. -/
theorem C5_stop_breaks_ledger_completeness :
    submittedCount [("M", [("P1", envOk), ("P2", envOk)])] = 2 ∧
      (merchantThreadRun strategyOk "ts" "M" (fun _ => true) 0
          [("P1", envOk), ("P2", envOk)] initState).history.length = 0 ∧
      (merchantThreadRun strategyOk "ts" "M" (fun _ => true) 0
          [("P1", envOk), ("P2", envOk)] initState).total = 0 :=
  ⟨rfl, rfl, rfl⟩

/-- C5 (amended): for any run of K submitted tasks that is not interrupted
by a stop request (every read of the stop flag during the run returns
false), after the join the ledger length equals K, the total counter equals
K, and success + failed = total; moreover every executed task increments the
total counter exactly once and exactly one of the success/failed counters
exactly once.  In a run interrupted by `requestStop`/`stopAll` the same
equalities hold with K replaced by the number of executed tasks. -/
theorem C5_quiescent_accounting (strategy : Strategy) (ts : String)
    (merchants : List (String × List (String × TaskEnv))) :
    (runFixed strategy ts (fun _ => false) merchants initState).history.length
        = submittedCount merchants ∧
      (runFixed strategy ts (fun _ => false) merchants initState).total
        = submittedCount merchants ∧
      (runFixed strategy ts (fun _ => false) merchants initState).successCnt
          + (runFixed strategy ts (fun _ => false) merchants initState).failedCnt
        = (runFixed strategy ts (fun _ => false) merchants initState).total ∧
      (∀ st : MgrState, ∀ m p : String, ∀ env : TaskEnv,
        (runTask st m p env strategy ts).total = st.total + 1 ∧
          (((runTask st m p env strategy ts).successCnt = st.successCnt + 1 ∧
              (runTask st m p env strategy ts).failedCnt = st.failedCnt) ∨
            ((runTask st m p env strategy ts).successCnt = st.successCnt ∧
              (runTask st m p env strategy ts).failedCnt = st.failedCnt + 1))) := by
  have h := runFixed_noStop strategy ts merchants initState
  have e1 : initState.total = 0 := rfl
  have e2 : initState.history.length = 0 := rfl
  have e3 : initState.successCnt = 0 := rfl
  have e4 : initState.failedCnt = 0 := rfl
  refine ⟨?_, ?_, ?_, ?_⟩
  · omega
  · omega
  · omega
  · intro st m p env
    refine ⟨rfl, ?_⟩
    unfold runTask
    by_cases hx : (executePricingTask st.table m p env strategy).1.success
    · exact Or.inl ⟨by simp [hx], by simp [hx]⟩
    · exact Or.inr ⟨by simp [hx], by simp [hx]⟩

/-- C6 (confirmed): applying the three calls with values 120, 80, 150 one
after another against an initially absent key, in any of the six arrival
orders, leaves 80 as the final stored value, and exactly one call — the one
carrying 80 — observes that it set 80 (returned true with argument 80). -/
theorem C6_order_independence :
    ∀ l ∈ arrivalOrders,
      findPrice (runUpdates "P1" l []).2 "P1" = some 80 ∧
        List.count ((80 : ℚ), true) (l.zip (runUpdates "P1" l []).1) = 1 := by
  decide

/-- C6 witness: the order 80, 120, 150. -/
theorem C6_witness :
    findPrice (runUpdates "P1" [80, 120, 150] []).2 "P1" = some 80 ∧
      List.count ((80 : ℚ), true)
          (([80, 120, 150] : List ℚ).zip (runUpdates "P1" [80, 120, 150] []).1) = 1 :=
  C6_order_independence [80, 120, 150] (by decide)

/-- The concrete ledger record used for the C7 counterexample. -/
def sampleRecord : PriceRecord :=
  { timestamp := "2025-11-18 10:00:00", merchantName := "A", productId := "P1",
    originalPrice := 100, adjustedPrice := 95, adjustmentRate := -5,
    stockLevel := 350, status := "SUCCESS" }

/-- C7 (counterexample): "every numeric field rendered with two decimal
places" is false: `stockLevel` is an `int` and is streamed without decimal
places.  For a concrete record with stock level 350 the seventh CSV field
is the string "350", which has no two-decimal rendering, as the full
exported lines show. -/
theorem C7_stock_level_not_two_decimals :
    (csvFields sampleRecord).get? 6 = some "350" ∧
      ¬ twoDecimalPlaces "350" ∧
      csvRow sampleRecord
        = "2025-11-18 10:00:00,A,P1,100.00,95.00,-5.00%,350,SUCCESS" ∧
      exportPriceTrend [sampleRecord]
        = ["timestamp,merchant,product,original_price,adjusted_price,adjustment_rate,stock_level,status",
           "2025-11-18 10:00:00,A,P1,100.00,95.00,-5.00%,350,SUCCESS"] := by
  exact ⟨by decide, by decide, by decide, by decide⟩

/-- C7 (amended): `exportPriceTrend` writes first the exact header line,
then one row per ledger record in append order; the `adjustment_rate` field
carries a `%` suffix; the three floating-point fields (`original_price`,
`adjusted_price`, `adjustment_rate`) are rendered with two decimal places,
while `stock_level` is rendered as a plain integer. -/
theorem C7_export_format (history : List PriceRecord) :
    (exportPriceTrend history).head? =
        some "timestamp,merchant,product,original_price,adjusted_price,adjustment_rate,stock_level,status" ∧
      (exportPriceTrend history).length = history.length + 1 ∧
      (∀ i : ℕ, (exportPriceTrend history).get? (i + 1) = (history.get? i).map csvRow) ∧
      (∀ r : PriceRecord,
        (csvFields r).get? 3 = some (twoDec r.originalPrice) ∧
          (csvFields r).get? 4 = some (twoDec r.adjustedPrice) ∧
          (csvFields r).get? 5 = some (twoDec r.adjustmentRate ++ "%") ∧
          (csvFields r).get? 6 = some (toString r.stockLevel)) ∧
      (∀ q : ℚ, twoDecimalPlaces (twoDec q)) := by
  refine ⟨rfl, by simp [exportPriceTrend], ?_, fun r => ⟨rfl, rfl, rfl, rfl⟩,
    twoDec_twoDecimalPlaces⟩
  intro i
  simp [exportPriceTrend, List.getElem?_map]

/-- C8 (confirmed): `recordPriceChange` computes the adjustment rate as
`(adjustedPrice / basePrice - 1) * 100` with no guard against
`basePrice == 0`.  For nonzero base the division is well-defined and a
failed task's rate (adjusted = base) is 0; but a task that fails before a
baseline is established (absent key, so the current price reads 0, and the
seeding machinery throws before `task.basePrice` is assigned) leaves base
and adjusted price both at the zero-initialised default, and the record's
rate expression is an unguarded 0/0 division. -/
theorem C8_unguarded_rate_division (table : Table) (m p ts : String) (env : TaskEnv)
    (strategy : Strategy)
    (habsent : findPrice table p = none) (hseed : env.seedFails = true) :
    (executePricingTask table m p env strategy).1.basePrice = 0 ∧
      (executePricingTask table m p env strategy).1.adjustedPrice = 0 ∧
      (executePricingTask table m p env strategy).1.success = false ∧
      (mkRecord ts m (executePricingTask table m p env strategy).1).adjustmentRate
        = adjustmentRate 0 0 ∧
      adjustmentRateChecked 0 0 = none ∧
      (∀ a b : ℚ, b ≠ 0 → adjustmentRateChecked a b = some (adjustmentRate a b)) ∧
      (∀ b : ℚ, b ≠ 0 → adjustmentRate b b = 0) := by
  have hget : getPrice table p = 0 := by simp [getPrice, habsent]
  have hseedstep : seedStep env (getPrice table p)
      = Except.error "random_device failure" := by
    simp [seedStep, hget, hseed]
  refine ⟨?_, ?_, ?_, ?_, by decide, ?_, ?_⟩
  · simp [executePricingTask, hseedstep, failTask, defaultTask]
  · simp [executePricingTask, hseedstep, failTask, defaultTask]
  · simp [executePricingTask, hseedstep, failTask, defaultTask]
  · simp [executePricingTask, hseedstep, failTask, defaultTask, mkRecord]
  · intro a b hb
    simp [adjustmentRateChecked, ratDivChecked, hb, adjustmentRate]
  · intro b hb
    simp [adjustmentRate, div_self hb]

/-- C8 witness: the concrete early-failure scenario (empty table, seeding
machinery throws). -/
theorem C8_witness :
    (executePricingTask [] "A" "P1" envSeedFail strategyOk).1.basePrice = 0 ∧
      (executePricingTask [] "A" "P1" envSeedFail strategyOk).1.adjustedPrice = 0 ∧
      (executePricingTask [] "A" "P1" envSeedFail strategyOk).1.success = false ∧
      (mkRecord "ts" "A" (executePricingTask [] "A" "P1" envSeedFail strategyOk).1).adjustmentRate
        = adjustmentRate 0 0 ∧
      adjustmentRateChecked 0 0 = none ∧
      (∀ a b : ℚ, b ≠ 0 → adjustmentRateChecked a b = some (adjustmentRate a b)) ∧
      (∀ b : ℚ, b ≠ 0 → adjustmentRate b b = 0) :=
  C8_unguarded_rate_division [] "A" "P1" "ts" envSeedFail strategyOk rfl rfl

/-- C9 (confirmed): after `updatePriceIfLower(id, p)` the stored value for
`id` is `p` when the key was absent or `p` was strictly below the previous
value, and the previous value otherwise; immediately repeating the
identical call returns `false` and leaves the table unchanged. -/
theorem C9_post_state_idempotent (t : Table) (id : String) (p : ℚ) :
    findPrice (updatePriceIfLower t id p).2 id =
        some (match findPrice t id with
              | none => p
              | some cur => if p < cur then p else cur) ∧
      updatePriceIfLower (updatePriceIfLower t id p).2 id p
        = (false, (updatePriceIfLower t id p).2) := by
  unfold updatePriceIfLower
  cases h : findPrice t id with
  | none =>
      simp [h, findPrice_mapInsert_self]
  | some cur =>
      by_cases hlt : p < cur
      · simp [h, hlt, findPrice_mapInsert_self]
      · simp [h, hlt]

/-- C10 (confirmed): no member function of `ThreadSafePriceTable` removes a
key: over any call sequence the key set only grows and `size()` is
monotonically non-decreasing; `getPrice` and `getAllPrices` (and `size`)
leave the table unmodified, `getAllPrices` returning a copy. -/
theorem C10_keyset_monotone (t : Table) (ops : List TableOp) :
    keys t ⊆ keys (applyOps t ops) ∧
      tableSize t ≤ tableSize (applyOps t ops) ∧
      (∀ id, applyOp t (TableOp.getPriceOp id) = t) ∧
      applyOp t TableOp.getAllPricesOp = t ∧
      applyOp t TableOp.sizeOp = t ∧
      getAllPrices t = t :=
  ⟨keys_applyOps_sub ops t, tableSize_applyOps_ge ops t, fun _ => rfl, rfl, rfl, rfl⟩

/-- C10 witness: the key "A" survives a sequence of writes to another key. -/
theorem C10_witness :
    "A" ∈ keys (applyOps [("A", (5 : ℚ))]
      [TableOp.setPriceOp "B" 3, TableOp.updatePriceIfLowerOp "B" 2]) :=
  (C10_keyset_monotone [("A", (5 : ℚ))]
    [TableOp.setPriceOp "B" 3, TableOp.updatePriceIfLowerOp "B" 2]).1 (by decide)

end ThreadMgr
